import Mathlib

/-!
Verification of the tablein table/grid engine (src/tablein.js).

The embedding models the rendering-and-state engine: JS values appearing in
table cells, the table state record, client-side data loading and pagination,
the sort comparator, the search filter, the rules-engine numeric conditions,
and the collaboration / version-history controller.

Modelling conventions:
* JS numbers are modelled as integers (`Int`); every concrete value exercised
  by the specification is integral.
* `Date.now()` is modelled as an explicit timestamp argument.
* `new Date(v)` validity/ordering is modelled by `jsParseDate`: numbers and
  `null` give epoch offsets, and date strings are recognised in the ISO
  `YYYY-MM-DD` form (the only format ECMA-262 requires engines to parse).
* `String.prototype.localeCompare` is modelled as the sign of a total order
  on strings.
* JS `Map` objects are modelled as total functions with `[]` default, and the
  DOM table body as the list of row values currently rendered
  (`renderedRows`); custom per-column render functions are out of the model.
* Rows are open maps from field name to value, modelled as association lists;
  a missing field reads as `undefined`.
-/

namespace Tablein

/-- A JavaScript value as it appears in a table cell. -/
inductive JSVal where
  | str (s : String)
  | num (n : Int)
  | null
  | undefined
deriving DecidableEq

/-- `String(v)` for a cell value. -/
def jsToString : JSVal → String
  | .str s => s
  | .num n => toString n
  | .null => "null"
  | .undefined => "undefined"

/-- JS truthiness: `''`, `0`, `null`, `undefined` are falsy. -/
def jsFalsy : JSVal → Bool
  | .str "" => true
  | .num 0 => true
  | .null => true
  | .undefined => true
  | _ => false

/-- `String(v || '')` as used by the sort comparator's string branch. -/
def strOrEmpty (v : JSVal) : String :=
  if jsFalsy v then "" else jsToString v

/-- Value of the longest digit run at the head of `cs` (accumulator form). -/
def takeDigitsVal : List Char → Nat → Nat
  | [], acc => acc
  | c :: rest, acc =>
    if c.isDigit then takeDigitsVal rest (acc * 10 + (c.toNat - 48)) else acc

/-- Leading-digit-run parse: `none` unless the list starts with a digit. -/
def leadNat : List Char → Option Nat
  | [] => none
  | c :: rest => if c.isDigit then some (takeDigitsVal (c :: rest) 0) else none

/-- `parseFloat` on a string: skip leading whitespace, optional sign, then a
digit run (numeric literals modelled as integers). `"12abc"` parses to `12`. -/
def parseFloatStr (s : String) : Option Int :=
  match s.toList.dropWhile (·.isWhitespace) with
  | '-' :: rest => (leadNat rest).map (fun n => -(n : Int))
  | '+' :: rest => (leadNat rest).map (fun n => (n : Int))
  | cs => (leadNat cs).map (fun n => (n : Int))

/-- `parseFloat(v)`: numbers pass through; `null`/`undefined` coerce to the
strings `"null"`/`"undefined"` and give `NaN` (modelled as `none`). -/
def jsParseFloat : JSVal → Option Int
  | .num n => some n
  | .str s => parseFloatStr s
  | .null => none
  | .undefined => none

/-- All-digit parse of a whole character list. -/
def allNat : List Char → Option Nat
  | [] => none
  | cs => if cs.all (·.isDigit) then some (takeDigitsVal cs 0) else none

/-- `Number()` coercion of a string: trimmed-empty gives `0`; otherwise the
whole trimmed string must be an (optionally signed) digit run. -/
def numberStr (s : String) : Option Int :=
  match ((s.toList.dropWhile (·.isWhitespace)).reverse.dropWhile (·.isWhitespace)).reverse with
  | [] => some 0
  | '-' :: rest => (allNat rest).map (fun n => -(n : Int))
  | '+' :: rest => (allNat rest).map (fun n => (n : Int))
  | cs => (allNat cs).map (fun n => (n : Int))

/-- `Number(v)`: `Number(null) = 0`, `Number(undefined) = NaN`. -/
def jsNumber : JSVal → Option Int
  | .num n => some n
  | .str s => numberStr s
  | .null => some 0
  | .undefined => none

/-- Decimal digit value of a character. -/
def digitVal (c : Char) : Nat := c.toNat - 48

/-- `new Date(s)` for a string, recognising the ISO `YYYY-MM-DD` format and
returning a monotone epoch encoding. Out-of-range month/day is invalid. -/
def isoParse (s : String) : Option Int :=
  match s.toList with
  | [y1, y2, y3, y4, c1, m1, m2, c2, d1, d2] =>
    if c1 = '-' ∧ c2 = '-' ∧ y1.isDigit ∧ y2.isDigit ∧ y3.isDigit ∧ y4.isDigit ∧
       m1.isDigit ∧ m2.isDigit ∧ d1.isDigit ∧ d2.isDigit then
      let y := ((digitVal y1 * 10 + digitVal y2) * 10 + digitVal y3) * 10 + digitVal y4
      let m := digitVal m1 * 10 + digitVal m2
      let d := digitVal d1 * 10 + digitVal d2
      if 1 ≤ m ∧ m ≤ 12 ∧ 1 ≤ d ∧ d ≤ 31 then
        some ((((y * 12 + m) * 31 + d : Nat) : Int) * 86400000)
      else none
    else none
  | _ => none

/-- `new Date(v)` validity and temporal value: a number is an epoch offset,
`new Date(null)` is epoch `0`, `new Date(undefined)` is invalid. -/
def jsParseDate : JSVal → Option Int
  | .num n => some n
  | .str s => isoParse s
  | .null => some 0
  | .undefined => none

/-- Lexicographic strict order on character lists (by code point). -/
def charListLt : List Char → List Char → Bool
  | [], [] => false
  | [], _ :: _ => true
  | _ :: _, [] => false
  | a :: as, b :: bs =>
    if a.toNat < b.toNat then true
    else if b.toNat < a.toNat then false
    else charListLt as bs

/-- `a.localeCompare(b)` modelled as the sign of a total order on strings. -/
def localeCompare (a b : String) : Int :=
  if charListLt a.toList b.toList then -1
  else if charListLt b.toList a.toList then 1
  else 0

/-- Does `hay` start with `needle`? -/
def leadsWith : List Char → List Char → Bool
  | [], _ => true
  | _ :: _, [] => false
  | a :: as, b :: bs => a = b && leadsWith as bs

/-- Does `hay` contain `needle` as a contiguous run? -/
def hasSub (needle : List Char) : List Char → Bool
  | [] => leadsWith needle []
  | c :: rest => leadsWith needle (c :: rest) || hasSub needle rest

/-- `hay.includes(sub)` for strings. -/
def strIncludes (hay sub : String) : Bool := hasSub sub.toList hay.toList

/-- `s.trim()`: strip leading and trailing whitespace. -/
def strTrim (s : String) : String :=
  ⟨((s.toList.dropWhile (·.isWhitespace)).reverse.dropWhile (·.isWhitespace)).reverse⟩

/-- `s.toLowerCase()`: character-wise lowercasing. -/
def lowerStr (s : String) : String := ⟨s.toList.map Char.toLower⟩

/-- Sort direction (`this.sortDirection`). -/
inductive SortDir where
  | asc
  | desc
deriving DecidableEq

/-- The client-side sort comparator of `sortBy` (tablein.js lines 1246-1279):
strictly equal values compare `0`; if both values `parseFloat`, compare
numerically; else if both are valid dates, compare temporally; else compare
`String(v || '')` with `localeCompare`. `desc` mirrors every branch. -/
def compareVals (dir : SortDir) (valA valB : JSVal) : Int :=
  if valA = valB then 0
  else
    match jsParseFloat valA, jsParseFloat valB with
    | some a, some b => if dir = .asc then a - b else b - a
    | _, _ =>
      match jsParseDate valA, jsParseDate valB with
      | some da, some db => if dir = .asc then da - db else db - da
      | _, _ =>
        let strA := strOrEmpty valA
        let strB := strOrEmpty valB
        if dir = .asc then localeCompare strA strB else localeCompare strB strA

/-- A table row: an open mapping from field name to value. A missing field
reads as `undefined`. -/
abbrev Row : Type := List (String × JSVal)

/-- `row[field]` access. -/
def getField (row : Row) (field : String) : JSVal :=
  match row.find? (fun p => p.1 = field) with
  | some p => p.2
  | none => .undefined

/-- `row[field] = value` assignment: replace the binding, or add it. -/
def setField (row : Row) (field : String) (v : JSVal) : Row :=
  if row.any (fun p => p.1 = field) then
    row.map (fun p => if p.1 = field then (p.1, v) else p)
  else row ++ [(field, v)]

/-- A collaboration user identity (`{id, name}`; colour is presentation-only
and omitted). -/
structure User where
  id : Int
  name : String
deriving DecidableEq

/-- A cell version entry `{value, timestamp, user}`; `none` models the
`{name: 'Unknown User'}` placeholder stored when no user is given. -/
structure Version where
  value : JSVal
  timestamp : Int
  user : Option User
deriving DecidableEq

/-- The cell-version store (`this.cellVersions`), a map from cell key to the
stored version list; absent keys read as `[]`. -/
def CellVersions : Type := String → List Version

/-- The version-store key `"{rowIndex}:{field}"`. -/
def verKey (rowIndex : Nat) (field : String) : String :=
  toString rowIndex ++ ":" ++ field

/-- The configuration options exercised by the engine's client-side paths.
`serverSide: false` is assumed throughout: the server path performs a network
fetch and is outside this model. -/
structure Config where
  pageSize : Nat
  columns : List String
  infiniteScroll : Bool
  lazyLoad : Bool
  versionHistory : Bool
  maxVersions : Nat
  collaborationUser : Option User

/-- The table state owned by the engine instance. `data` is the live working
array (`this.options.data`), `originalData` the pristine restore point, and
`renderedRows` the row values currently rendered into the table body. -/
structure TableState where
  currentPage : Nat
  totalPages : Nat
  totalRecords : Nat
  loadedRows : Nat
  searchTerm : String
  sortField : Option String
  sortDirection : SortDir
  isBusy : Bool
  hasMoreData : Bool
  data : List Row
  originalData : List Row
  renderedRows : List Row
  cellVersions : CellVersions

/-- `Math.ceil(n / s)` for natural `n`, `s`: the page count computed by
`loadClientData` (note: `0`, not `1`, when `n = 0`). -/
def totalPagesClient (n s : Nat) : Nat := (n + s - 1) / s

/-- `data.slice((p-1)*s, p*s)`: the rows of page `p` at page size `s`. -/
def pageSlice (data : List Row) (s p : Nat) : List Row :=
  (data.drop ((p - 1) * s)).take s

/-- `loadClientData` (tablein.js lines 826-857): slice the working array for
the current page (or first batch), update the paging counters, render, and
clear the busy flag. The second component is the row list handed to
`renderData`/`appendData`. -/
def loadClientData (cfg : Config) (st : TableState) : TableState × Option (List Row) :=
  let data := st.data
  if cfg.infiniteScroll || cfg.lazyLoad then
    let initialCount := min cfg.pageSize data.length
    let initialData := data.take initialCount
    let rendered := if st.loadedRows = 0 then initialData else st.renderedRows ++ initialData
    ({ st with renderedRows := rendered,
               loadedRows := initialCount,
               hasMoreData := decide (initialCount < data.length),
               isBusy := false }, some initialData)
  else
    let pageData := pageSlice data cfg.pageSize st.currentPage
    ({ st with renderedRows := pageData,
               totalRecords := data.length,
               totalPages := totalPagesClient data.length cfg.pageSize,
               isBusy := false }, some pageData)

/-- `loadData` (tablein.js lines 717-730): dropped silently while busy;
otherwise sets the busy flag and runs the client-side load. -/
def loadData (cfg : Config) (st : TableState) : TableState × Option (List Row) :=
  if st.isBusy then (st, none)
  else loadClientData cfg { st with isBusy := true }

/-- `nextPage` (tablein.js lines 1328-1333). -/
def nextPage (cfg : Config) (st : TableState) : TableState × Option (List Row) :=
  if st.currentPage < st.totalPages ∧ st.isBusy = false then
    loadData cfg { st with currentPage := st.currentPage + 1 }
  else (st, none)

/-- `prevPage` (tablein.js lines 1338-1343). -/
def prevPage (cfg : Config) (st : TableState) : TableState × Option (List Row) :=
  if 1 < st.currentPage ∧ st.isBusy = false then
    loadData cfg { st with currentPage := st.currentPage - 1 }
  else (st, none)

/-- `goToPage` (tablein.js lines 1348-1353); the page argument is a JS
number, modelled as `Int`. -/
def goToPage (cfg : Config) (st : TableState) (p : Int) : TableState × Option (List Row) :=
  if 1 ≤ p ∧ p ≤ (st.totalPages : Int) ∧ st.isBusy = false then
    loadData cfg { st with currentPage := p.toNat }
  else (st, none)

/-- A row matches a search query when some column's stringified value,
lowercased, contains the lowercased query; `null`/`undefined` cells never
match (tablein.js lines 1303-1310). -/
def rowMatches (cfg : Config) (q : String) (row : Row) : Bool :=
  cfg.columns.any fun f =>
    let v := getField row f
    if v = .null ∨ v = .undefined then false
    else strIncludes (lowerStr (jsToString v)) (lowerStr q)

/-- `search` (tablein.js lines 1297-1323): an empty or whitespace-only query
restores a copy of the original array; otherwise the original array is
filtered; then the view state is reset and the data reloaded. -/
def searchOp (cfg : Config) (st : TableState) (q : String) : TableState × Option (List Row) :=
  let data := if q = "" ∨ strTrim q = "" then st.originalData
              else st.originalData.filter (rowMatches cfg q)
  let st := { st with data := data }
  if cfg.infiniteScroll || cfg.lazyLoad then
    loadData cfg { st with loadedRows := 0, hasMoreData := true }
  else
    loadData cfg { st with currentPage := 1,
                           totalPages := totalPagesClient data.length cfg.pageSize }

/-- The row ordering induced by the sort comparator on a field:
`a` may precede `b` when the comparator is non-positive. -/
def rowLe (field : String) (dir : SortDir) (a b : Row) : Bool :=
  compareVals dir (getField a field) (getField b field) ≤ 0

/-- The client-side data sort of `sortBy`: a stable sort by the comparator,
modelled by `List.mergeSort`. This model is faithful exactly when the
comparator is consistent (transitive and total) over the rows present — the
only case in which ECMA-262 pins down `Array.prototype.sort` (stable since
ES2019); for an inconsistent comparator, such as the cyclic one on
`cycleRows`, the host sort's order is implementation-defined and this
definition is one conforming choice among many. -/
def sortDataBy (field : String) (dir : SortDir) (data : List Row) : List Row :=
  data.mergeSort (rowLe field dir)

/-- `sortBy` (tablein.js lines 1212-1292): missing header is a no-op; the
direction toggles when re-sorting the same field; the working array is
sorted in place and the view reset to the first page/batch. -/
def sortByOp (cfg : Config) (st : TableState) (field : String) : TableState × Option (List Row) :=
  if field ∉ cfg.columns then (st, none)
  else
    let dir := if st.sortField = some field then
                 (if st.sortDirection = .asc then SortDir.desc else .asc)
               else .asc
    let st := { st with sortField := some field, sortDirection := dir,
                        data := sortDataBy field dir st.data }
    if cfg.infiniteScroll || cfg.lazyLoad then
      loadData cfg { st with loadedRows := 0, hasMoreData := true }
    else
      loadData cfg { st with currentPage := 1 }

/-- `addToVersionHistory` (tablein.js lines 1885-1909): append
`{value, timestamp, user}` to the cell's history and evict the oldest entry
when the bound is exceeded. -/
def addToVersionHistory (cfg : Config) (vs : CellVersions) (rowIndex : Nat)
    (field : String) (value : JSVal) (ts : Int) (user : Option User) : CellVersions :=
  if cfg.versionHistory = false then vs
  else
    let key := verKey rowIndex field
    let versions := vs key ++ [⟨value, ts, user⟩]
    let versions := if cfg.maxVersions < versions.length then versions.tail else versions
    fun k => if k = key then versions else vs k

/-- `getCellVersionHistory` (tablein.js lines 1914-1917): the stored list for
the cell key, `[]` when absent. -/
def getCellVersionHistory (st : TableState) (rowIndex : Nat) (field : String) : List Version :=
  st.cellVersions (verKey rowIndex field)

/-- The comparator `(a, b) => b.timestamp - a.timestamp` of
`showVersionHistory`, as an ordering function: newest first. -/
def tsLe (a b : Version) : Bool := b.timestamp ≤ a.timestamp

/-- `showVersionHistory` (tablein.js lines 1922-2004): no history is an early
return; otherwise the stored array itself is sorted in place by timestamp
descending (the dialog construction is presentation-only). -/
def showVersionHistory (st : TableState) (rowIndex : Nat) (field : String) : TableState :=
  let versions := getCellVersionHistory st rowIndex field
  if versions.isEmpty then st
  else { st with cellVersions :=
    fun k => if k = verKey rowIndex field then versions.mergeSort tsLe else st.cellVersions k }

/-- Update one row of the rendered table body in place, when present. -/
def setCell (rows : List Row) (i : Nat) (field : String) (v : JSVal) : List Row :=
  match rows.get? i with
  | some r => rows.set i (setField r field v)
  | none => rows

/-- `updateCellFromCollaboration` (tablein.js lines 1703-1764): self-echoes
are ignored; unknown columns and absent rows are no-ops; otherwise the row is
updated in place by index, the rendered cell rewritten, and (when enabled)
the change appended to the cell's version history. -/
def updateCellFromCollaboration (cfg : Config) (st : TableState) (rowIndex : Nat)
    (field : String) (value : JSVal) (user : Option User) (ts : Int) : TableState :=
  let echo := match user, cfg.collaborationUser with
              | some u, some lu => u.id == lu.id
              | _, _ => false
  if echo then st
  else if field ∉ cfg.columns then st
  else if rowIndex < st.data.length then
    let st := { st with data := setCell st.data rowIndex field value,
                        renderedRows := setCell st.renderedRows rowIndex field value }
    if cfg.versionHistory then
      { st with cellVersions := addToVersionHistory cfg st.cellVersions rowIndex field value ts user }
    else st
  else st

/-- Collaboration message tags. -/
inductive MsgType where
  | cellChange
  | userConnected
  | userDisconnected
  | cursorPosition
deriving DecidableEq

/-- An inbound collaboration message; optional fields model `undefined`. -/
structure CollabMessage where
  type : MsgType
  rowIndex : Option Nat
  columnField : Option String
  value : Option JSVal
  user : Option User

/-- `handleCollaborationMessage` (tablein.js lines 1667-1698) for the
`cell-change` arm; presence and cursor messages touch only the presence
roster and cursor overlays, not the row data, rendered cells, or version
history, and are modelled as identity on this state. -/
def handleCollaborationMessage (cfg : Config) (st : TableState)
    (msg : CollabMessage) (ts : Int) : TableState :=
  match msg.type with
  | .cellChange =>
    match msg.rowIndex, msg.columnField, msg.value with
    | some ri, some f, some v => updateCellFromCollaboration cfg st ri f v msg.user ts
    | _, _, _ => st
  | _ => st

/-- The numeric-comparison operators of the rules engine; the remaining
operators of the `evaluateCondition` switch (equality, string, set and
nullness predicates, and the function escape hatch) are not exercised by the
claims and are outside the model. -/
inductive NumOp where
  | gt
  | ge
  | lt
  | le
deriving DecidableEq

/-- `evaluateCondition` (tablein.js lines 3446-3453) for the numeric
operators: both operands are coerced with `Number(...)`; any comparison
involving `NaN` (`none`) is false. -/
def evaluateCondition (op : NumOp) (value condValue : JSVal) : Bool :=
  match jsNumber value, jsNumber condValue with
  | some x, some y =>
    match op with
    | .gt => y < x
    | .ge => y ≤ x
    | .lt => x < y
    | .le => x ≤ y
  | _, _ => false

/-- The empty version store. -/
def emptyVersions : CellVersions := fun _ => []

/-- A table state for concrete scenarios. -/
def mkState (data original : List Row) (page : Nat) (busy : Bool) : TableState :=
  { currentPage := page, totalPages := 1, totalRecords := 0, loadedRows := 0,
    searchTerm := "", sortField := none, sortDirection := .asc,
    isBusy := busy, hasMoreData := false, data := data,
    originalData := original, renderedRows := [], cellVersions := emptyVersions }

/-- A paged (non-incremental) client-side configuration. -/
def pagedConfig (s : Nat) (cols : List String) : Config :=
  { pageSize := s, columns := cols, infiniteScroll := false, lazyLoad := false,
    versionHistory := false, maxVersions := 10, collaborationUser := none }

/-- Twenty-five distinct one-column rows, for the concrete paging scenario. -/
def rows25 : List Row := (List.range 25).map (fun i => [("id", JSVal.num i)])

/-- A row whose "v" cell is `null`. -/
def rNull : Row := [("v", JSVal.null)]

/-- A row whose "v" cell is the number `-3`. -/
def rNeg : Row := [("v", JSVal.num (-3))]

/-- A row whose "v" cell is the non-numeric, non-date string `"--"`. -/
def rDash : Row := [("v", JSVal.str "--")]

/-- Three rows over field "v" on which the sort comparator is cyclic:
`null` exceeds `-3` temporally (dates 0 and -3), `-3` exceeds `"--"` as
strings ("-3" vs "--"), and `"--"` exceeds `null` (stringified `""`) as
strings. -/
def cycleRows : List Row := [rNull, rNeg, rDash]

/-- A sequence of `addToVersionHistory` calls on one cell, oldest first. -/
def foldAddVersions (cfg : Config) (vs : CellVersions) (rowIndex : Nat) (field : String)
    (entries : List Version) : CellVersions :=
  entries.foldl (fun m e => addToVersionHistory cfg m rowIndex field e.value e.timestamp e.user) vs

/-- A versioning configuration with `maxVersions = 2`. -/
def vhConfig : Config :=
  { pageSize := 10, columns := ["v"], infiniteScroll := false, lazyLoad := false,
    versionHistory := true, maxVersions := 2, collaborationUser := none }

/-- Concrete version entries v1@t1, v2@t2, v3@t3. -/
def ver1 : Version := ⟨JSVal.str "v1", 1, none⟩

/-- Second concrete version entry. -/
def ver2 : Version := ⟨JSVal.str "v2", 2, none⟩

/-- Third concrete version entry. -/
def ver3 : Version := ⟨JSVal.str "v3", 3, none⟩

/-- A collaboration configuration whose local user has id 7. -/
def collabConfig : Config :=
  { pageSize := 10, columns := ["v"], infiniteScroll := false, lazyLoad := false,
    versionHistory := true, maxVersions := 2, collaborationUser := some ⟨7, "local"⟩ }

/-- A `cell-change` message echoing the local user's own id 7. -/
def echoMsg : CollabMessage :=
  ⟨.cellChange, some 0, some "v", some (JSVal.str "x"), some ⟨7, "remote"⟩⟩

/-- The search-match predicate exactly as the specification words it: some
column's stringified value contains the lowercased query as a substring (the
stored value itself is not lowercased). -/
def specSearchMatches (cfg : Config) (q : String) (row : Row) : Bool :=
  cfg.columns.any fun f => strIncludes (jsToString (getField row f)) (lowerStr q)

/-- A one-row dataset whose only value is the upper-case string "ABC". -/
def rowsABC : List Row := [[("name", JSVal.str "ABC")]]

/-- A state holding a two-entry chronological version history for cell
`0:v`. -/
def vhState : TableState :=
  { mkState [] [] 1 false with
    cellVersions := fun k =>
      if k = verKey 0 "v" then [⟨JSVal.str "a", 1, none⟩, ⟨JSVal.str "b", 2, none⟩] else [] }

end Tablein

namespace Tablein

/-! ## Pagination helpers -/

theorem totalPagesClient_pos_form {n s : Nat} (hs : 0 < s) (hn : 1 ≤ n) :
    totalPagesClient n s = (n - 1) / s + 1 := by
  unfold totalPagesClient
  have h1 : n + s - 1 = (n - 1) + s := by omega
  rw [h1, Nat.add_div_right _ hs]

theorem totalPagesClient_zero {s : Nat} (hs : 1 ≤ s) : totalPagesClient 0 s = 0 := by
  unfold totalPagesClient
  exact Nat.div_eq_of_lt (by omega)

theorem totalPagesClient_succ {n s : Nat} (hs : 1 ≤ s) (hn : 1 ≤ n) :
    totalPagesClient n s = totalPagesClient (n - s) s + 1 := by
  by_cases hns : n ≤ s
  · have h0 : n - s = 0 := by omega
    rw [totalPagesClient_pos_form hs hn, h0, totalPagesClient_zero hs,
      Nat.div_eq_of_lt (by omega)]
  · have hn' : 1 ≤ n - s := by omega
    rw [totalPagesClient_pos_form hs hn, totalPagesClient_pos_form hs hn']
    have h1 : n - 1 = (n - s - 1) + s := by omega
    rw [h1, Nat.add_div_right _ hs]

theorem pages_flatten (s : Nat) (hs : 1 ≤ s) :
    ∀ (k : Nat) (data : List Row), totalPagesClient data.length s = k →
    ((List.range k).map (fun i => pageSlice data s (i + 1))).flatten = data := by
  intro k
  induction k with
  | zero =>
    intro data h
    have hd : data.length = 0 := by
      by_contra hd
      rw [totalPagesClient_pos_form hs (by omega)] at h
      exact Nat.succ_ne_zero _ h
    rw [List.length_eq_zero.mp hd]
    simp
  | succ k ih =>
    intro data h
    have hn : 1 ≤ data.length := by
      by_contra hd
      have h0 : data.length = 0 := by omega
      rw [h0, totalPagesClient_zero hs] at h
      omega
    have hsub : totalPagesClient (data.drop s).length s = k := by
      rw [List.length_drop]
      have hsucc : totalPagesClient data.length s = totalPagesClient (data.length - s) s + 1 :=
        totalPagesClient_succ hs hn
      rw [hsucc] at h
      exact Nat.add_right_cancel h
    have hstep : ∀ i : Nat, pageSlice data s (i + 1 + 1) = pageSlice (data.drop s) s (i + 1) := by
      intro i
      unfold pageSlice
      rw [Nat.add_sub_cancel, Nat.add_sub_cancel, List.drop_drop]
      have harith : s + i * s = (i + 1) * s := by ring
      rw [harith]
    rw [List.range_succ_eq_map, List.map_cons, List.map_map]
    have hmap : (List.range k).map ((fun i => pageSlice data s (i + 1)) ∘ Nat.succ)
        = (List.range k).map (fun i => pageSlice (data.drop s) s (i + 1)) := by
      apply List.map_congr_left
      intro i _
      exact hstep i
    rw [hmap, List.flatten_cons, ih (data.drop s) hsub]
    simp [pageSlice]

/-! ## C1: pagination invariant -/

/-- C1, counterexample: with an empty client-side dataset and page size 10,
`loadClientData` computes `totalPages = Math.ceil(0/10) = 0`, not the `1`
the claim asserts for `n == 0`. -/
theorem c1_counterexample :
    (mkState [] [] 1 false).data.length = 0 ∧
    (loadData (pagedConfig 10 []) (mkState [] [] 1 false)).1.totalPages = 0 ∧
    (loadData (pagedConfig 10 []) (mkState [] [] 1 false)).1.totalPages ≠ 1 := by
  refine ⟨rfl, rfl, by decide⟩

/-- C1 (amended): for a client-side load with page size `s ≥ 1`, the state
ends with `totalPages = ceil(n/s)` — which is `0`, not `1`, when `n = 0` —
the rendered page is the slice for the current page, the page slices for
pages `1..totalPages` concatenate in order to exactly the working dataset,
and with 25 rows and page size 10 the page count is 3 and page 3 holds
exactly rows 21-25. -/
theorem c1_pagination_amended (cfg : Config) (st : TableState)
    (hb : st.isBusy = false) (hinf : cfg.infiniteScroll = false)
    (hlazy : cfg.lazyLoad = false) (hs : 1 ≤ cfg.pageSize) :
    (loadData cfg st).1.totalPages = totalPagesClient st.data.length cfg.pageSize ∧
    (loadData cfg st).2 = some (pageSlice st.data cfg.pageSize st.currentPage) ∧
    ((List.range (totalPagesClient st.data.length cfg.pageSize)).map
        (fun i => pageSlice st.data cfg.pageSize (i + 1))).flatten = st.data ∧
    (st.data.length = 0 → (loadData cfg st).1.totalPages = 0) ∧
    (st.data.length = 25 → cfg.pageSize = 10 →
      (loadData cfg st).1.totalPages = 3 ∧
      pageSlice st.data cfg.pageSize 3 = st.data.drop 20 ∧
      (pageSlice st.data cfg.pageSize 3).length = 5) := by
  have h1 : (loadData cfg st).1.totalPages = totalPagesClient st.data.length cfg.pageSize := by
    simp [loadData, hb, loadClientData, hinf, hlazy]
  refine ⟨h1, ?_, pages_flatten cfg.pageSize hs _ st.data rfl, ?_, ?_⟩
  · simp [loadData, hb, loadClientData, hinf, hlazy]
  · intro h0
    rw [h1, h0, totalPagesClient_zero hs]
  · intro h25 hps
    refine ⟨?_, ?_, ?_⟩
    · rw [h1, h25, hps]
      decide
    · unfold pageSlice
      rw [hps]
      have h20 : (3 - 1) * 10 = 20 := by norm_num
      rw [h20]
      exact List.take_of_length_le (by rw [List.length_drop, h25]; omega)
    · unfold pageSlice
      rw [hps, List.length_take, List.length_drop, h25]
      omega

/-- C1 witness: the amended pagination facts at 25 concrete rows with page
size 10. -/
theorem c1_pagination_witness :
    (loadData (pagedConfig 10 ["id"]) (mkState rows25 rows25 1 false)).1.totalPages = 3 ∧
    pageSlice rows25 10 3 = rows25.drop 20 ∧
    (pageSlice rows25 10 3).length = 5 := by
  have h := c1_pagination_amended (pagedConfig 10 ["id"]) (mkState rows25 rows25 1 false)
    rfl rfl rfl (by decide)
  have h25 : (mkState rows25 rows25 1 false).data.length = 25 := by decide
  have hc := h.2.2.2.2 h25 rfl
  exact hc

/-! ## C2: busy no-op -/

/-- C2: `loadData` while `isBusy` is a silent no-op — no fetch, no render
(`none`), and the entire table state (every field) is returned unchanged. -/
theorem c2_busy_noop (cfg : Config) (st : TableState) (h : st.isBusy = true) :
    loadData cfg st = (st, none) := by
  simp [loadData, h]

/-- C2 witness: a concrete busy state is left untouched by `loadData`. -/
theorem c2_busy_noop_witness :
    loadData (pagedConfig 10 ["id"]) (mkState rows25 rows25 2 true)
      = (mkState rows25 rows25 2 true, none) :=
  c2_busy_noop (pagedConfig 10 ["id"]) (mkState rows25 rows25 2 true) rfl

/-! ## C8: page-bound no-ops -/

/-- C8: `goToPage(p)` is a no-op when `p < 1` or `p > totalPages`;
`nextPage()` on the last page and `prevPage()` on page 1 are no-ops; and in
the 25-row, page-size-10 scenario on page 3, a load reports `totalPages = 3`
and `nextPage()` then changes nothing. -/
theorem c8_page_bounds (cfg : Config) (st : TableState) :
    (∀ p : Int, p < 1 ∨ (st.totalPages : Int) < p → goToPage cfg st p = (st, none)) ∧
    (st.currentPage = st.totalPages → nextPage cfg st = (st, none)) ∧
    (st.currentPage = 1 → prevPage cfg st = (st, none)) ∧
    (st.isBusy = false → cfg.infiniteScroll = false → cfg.lazyLoad = false →
      st.data.length = 25 → cfg.pageSize = 10 → st.currentPage = 3 →
      (loadData cfg st).1.totalPages = 3 ∧
      nextPage cfg (loadData cfg st).1 = ((loadData cfg st).1, none)) := by
  refine ⟨?_, ?_, ?_, ?_⟩
  · intro p hp
    unfold goToPage
    rw [if_neg]
    intro hcond
    rcases hp with hp | hp
    · omega
    · have := hcond.2.1
      omega
  · intro h
    unfold nextPage
    rw [if_neg]
    intro hcond
    omega
  · intro h
    unfold prevPage
    rw [if_neg]
    intro hcond
    omega
  · intro hb hinf hlazy h25 hps hcp
    have hstate : (loadData cfg st).1.totalPages = 3 ∧ (loadData cfg st).1.currentPage = 3 := by
      constructor
      · have : (loadData cfg st).1.totalPages = totalPagesClient st.data.length cfg.pageSize := by
          simp [loadData, hb, loadClientData, hinf, hlazy]
        rw [this, h25, hps]
        decide
      · simp [loadData, hb, loadClientData, hinf, hlazy, hcp]
    refine ⟨hstate.1, ?_⟩
    unfold nextPage
    rw [if_neg]
    intro hcond
    have := hcond.1
    omega

/-- C8 witness: the bound no-ops and the 25-row scenario at concrete
inputs. -/
theorem c8_page_bounds_witness :
    goToPage (pagedConfig 10 ["id"]) (mkState rows25 rows25 3 false) 0
      = (mkState rows25 rows25 3 false, none) ∧
    prevPage (pagedConfig 10 ["id"]) (mkState rows25 rows25 1 false)
      = (mkState rows25 rows25 1 false, none) ∧
    nextPage (pagedConfig 10 ["id"])
        (loadData (pagedConfig 10 ["id"]) (mkState rows25 rows25 3 false)).1
      = ((loadData (pagedConfig 10 ["id"]) (mkState rows25 rows25 3 false)).1, none) := by
  refine ⟨?_, ?_, ?_⟩
  · exact (c8_page_bounds (pagedConfig 10 ["id"]) (mkState rows25 rows25 3 false)).1 0
      (by decide)
  · exact (c8_page_bounds (pagedConfig 10 ["id"]) (mkState rows25 rows25 1 false)).2.2.1 rfl
  · exact ((c8_page_bounds (pagedConfig 10 ["id"]) (mkState rows25 rows25 3 false)).2.2.2
      rfl rfl rfl (by decide) rfl rfl).2

/-! ## C3: bounded FIFO version history -/

theorem addToVersionHistory_at_key0 (cfg : Config) (hvh : cfg.versionHistory = true)
    (vs : CellVersions) (rowIndex : Nat) (field : String) (e : Version) :
    (addToVersionHistory cfg vs rowIndex field e.value e.timestamp e.user) (verKey rowIndex field)
      = (if cfg.maxVersions < (vs (verKey rowIndex field)).length + 1
         then (vs (verKey rowIndex field) ++ [e]).tail
         else vs (verKey rowIndex field) ++ [e]) := by
  simp [addToVersionHistory, hvh, List.length_append]

theorem addToVersionHistory_at_key (cfg : Config) (hvh : cfg.versionHistory = true)
    (vs : CellVersions) (rowIndex : Nat) (field : String) (e : Version)
    (hlen : (vs (verKey rowIndex field)).length ≤ cfg.maxVersions) :
    (addToVersionHistory cfg vs rowIndex field e.value e.timestamp e.user) (verKey rowIndex field)
      = (vs (verKey rowIndex field) ++ [e]).drop
          ((vs (verKey rowIndex field)).length + 1 - cfg.maxVersions) := by
  rw [addToVersionHistory_at_key0 cfg hvh vs rowIndex field e]
  by_cases hc : cfg.maxVersions < (vs (verKey rowIndex field)).length + 1
  · rw [if_pos hc]
    have hidx : (vs (verKey rowIndex field)).length + 1 - cfg.maxVersions = 1 := by omega
    rw [hidx, List.drop_one]
  · rw [if_neg hc]
    have hidx : (vs (verKey rowIndex field)).length + 1 - cfg.maxVersions = 0 := by omega
    rw [hidx, List.drop_zero]

theorem foldAddVersions_at_key (cfg : Config) (hvh : cfg.versionHistory = true)
    (rowIndex : Nat) (field : String) :
    ∀ (entries : List Version) (vs : CellVersions),
    (vs (verKey rowIndex field)).length ≤ cfg.maxVersions →
    (foldAddVersions cfg vs rowIndex field entries) (verKey rowIndex field)
      = (vs (verKey rowIndex field) ++ entries).drop
          ((vs (verKey rowIndex field)).length + entries.length - cfg.maxVersions) := by
  intro entries
  induction entries with
  | nil =>
    intro vs hlen
    unfold foldAddVersions
    simp only [List.foldl_nil, List.append_nil, List.length_nil, Nat.add_zero]
    have hidx : (vs (verKey rowIndex field)).length - cfg.maxVersions = 0 := by omega
    rw [hidx, List.drop_zero]
  | cons e es ih =>
    intro vs hlen
    have hat := addToVersionHistory_at_key cfg hvh vs rowIndex field e hlen
    have hbound : ((addToVersionHistory cfg vs rowIndex field e.value e.timestamp e.user)
        (verKey rowIndex field)).length ≤ cfg.maxVersions := by
      rw [hat, List.length_drop, List.length_append, List.length_singleton]
      omega
    have hih := ih (addToVersionHistory cfg vs rowIndex field e.value e.timestamp e.user) hbound
    have hstep : foldAddVersions cfg vs rowIndex field (e :: es)
        = foldAddVersions cfg
            (addToVersionHistory cfg vs rowIndex field e.value e.timestamp e.user)
            rowIndex field es := by
      unfold foldAddVersions
      rw [List.foldl_cons]
    rw [hstep, hih, hat, List.length_drop, List.length_append, List.length_singleton]
    rw [← List.drop_append_of_le_length
      (by rw [List.length_append, List.length_singleton]; omega)]
    rw [List.drop_drop]
    have hassoc : (vs (verKey rowIndex field) ++ [e]) ++ es
        = vs (verKey rowIndex field) ++ e :: es := by simp
    rw [hassoc]
    congr 1
    simp only [List.length_cons]
    omega

/-- C3: with version history enabled, after `maxVersions + k` appends
(`k > 0`) to one cell starting from an empty history, the stored list for
the key `"{rowIndex}:{field}"` is exactly the last `maxVersions` entries in
append (chronological) order — FIFO eviction — and has length exactly
`maxVersions`. -/
theorem c3_version_bound (cfg : Config) (hvh : cfg.versionHistory = true)
    (rowIndex : Nat) (field : String) (entries : List Version) (k : Nat)
    (hk : 0 < k) (hlen : entries.length = cfg.maxVersions + k)
    (vs : CellVersions) (h0 : vs (verKey rowIndex field) = []) :
    (foldAddVersions cfg vs rowIndex field entries) (verKey rowIndex field)
      = entries.drop k ∧
    ((foldAddVersions cfg vs rowIndex field entries) (verKey rowIndex field)).length
      = cfg.maxVersions := by
  have hfold := foldAddVersions_at_key cfg hvh rowIndex field entries vs
    (by rw [h0]; simp)
  rw [h0] at hfold
  simp only [List.nil_append, List.length_nil, Nat.zero_add] at hfold
  have hidx : entries.length - cfg.maxVersions = k := by omega
  rw [hidx] at hfold
  exact ⟨hfold, by rw [hfold, List.length_drop]; omega⟩

/-- C3 witness: appending v1, v2, v3 with `maxVersions = 2` leaves exactly
`[v2, v3]`. -/
theorem c3_version_bound_witness :
    (foldAddVersions vhConfig emptyVersions 0 "v" [ver1, ver2, ver3]) (verKey 0 "v")
      = [ver2, ver3] ∧
    ((foldAddVersions vhConfig emptyVersions 0 "v" [ver1, ver2, ver3]) (verKey 0 "v")).length
      = 2 := by
  have h := c3_version_bound vhConfig rfl 0 "v" [ver1, ver2, ver3] 1 (by decide)
    (by decide) emptyVersions rfl
  exact ⟨by rw [h.1]; rfl, h.2⟩

/-! ## C4: collaboration echo suppression -/

/-- C4: handling an inbound `cell-change` message whose user id equals the
local collaboration user's id returns the state unchanged: no row-data
update, no rendered-cell update, no version-history append. -/
theorem c4_echo_suppression (cfg : Config) (st : TableState) (msg : CollabMessage)
    (ts : Int) (u lu : User) (htype : msg.type = .cellChange)
    (hu : msg.user = some u) (hlu : cfg.collaborationUser = some lu)
    (hid : u.id = lu.id) :
    handleCollaborationMessage cfg st msg ts = st := by
  unfold handleCollaborationMessage
  rw [htype]
  cases hri : msg.rowIndex with
  | none => rfl
  | some ri =>
    cases hcf : msg.columnField with
    | none => rfl
    | some f =>
      cases hv : msg.value with
      | none => rfl
      | some v =>
        unfold updateCellFromCollaboration
        rw [hu, hlu]
        simp [hid]

/-- C4 witness: a concrete echoed `cell-change` (both ids 7) leaves a
concrete state untouched. -/
theorem c4_echo_suppression_witness :
    handleCollaborationMessage collabConfig (mkState cycleRows cycleRows 1 false) echoMsg 5
      = mkState cycleRows cycleRows 1 false :=
  c4_echo_suppression collabConfig (mkState cycleRows cycleRows 1 false) echoMsg 5
    ⟨7, "remote"⟩ ⟨7, "local"⟩ rfl rfl rfl rfl

/-! ## C7: search filtering -/

theorem loadData_frame (cfg : Config) (st : TableState) :
    (loadData cfg st).1.data = st.data ∧
    (loadData cfg st).1.originalData = st.originalData := by
  unfold loadData
  by_cases h : st.isBusy
  · rw [if_pos h]
    exact ⟨rfl, rfl⟩
  · rw [if_neg h]
    unfold loadClientData
    cases hinf : cfg.infiniteScroll || cfg.lazyLoad <;> simp [hinf]

theorem searchOp_state (cfg : Config) (st : TableState) (q : String) :
    (searchOp cfg st q).1.data
      = (if q = "" ∨ strTrim q = "" then st.originalData
         else st.originalData.filter (rowMatches cfg q)) ∧
    (searchOp cfg st q).1.originalData = st.originalData := by
  unfold searchOp
  cases hinf : cfg.infiniteScroll || cfg.lazyLoad <;>
    simp [hinf, (loadData_frame cfg _).1, (loadData_frame cfg _).2]

/-- C7, counterexample: searching the one-row dataset `{name: "ABC"}` for
`"ABC"` keeps the row (the code lowercases both sides), while the claim's
predicate — the stringified value containing the lowercased query `"abc"` —
matches nothing, so the claimed working data is wrong. -/
theorem c7_counterexample :
    (searchOp (pagedConfig 10 ["name"]) (mkState rowsABC rowsABC 1 false) "ABC").1.data
      = rowsABC ∧
    rowsABC.filter (specSearchMatches (pagedConfig 10 ["name"]) "ABC") = [] ∧
    (searchOp (pagedConfig 10 ["name"]) (mkState rowsABC rowsABC 1 false) "ABC").1.data
      ≠ (mkState rowsABC rowsABC 1 false).originalData.filter
          (specSearchMatches (pagedConfig 10 ["name"]) "ABC") := by
  refine ⟨by decide, by decide, by decide⟩

/-- C7 (amended): an empty or whitespace-only query makes the working data
exactly the pristine original array; otherwise the working data is exactly
the original rows for which some column's stringified value, lowercased,
contains the lowercased query (null/undefined cells never match), kept in
original order; the original array survives unchanged, so searching with an
empty query after any earlier search restores the original rows. -/
theorem c7_search_amended (cfg : Config) (st : TableState) (q : String) :
    (strTrim q = "" → (searchOp cfg st q).1.data = st.originalData) ∧
    (strTrim q ≠ "" →
      (searchOp cfg st q).1.data = st.originalData.filter (rowMatches cfg q) ∧
      (searchOp cfg st q).1.data.Sublist st.originalData ∧
      (∀ r : Row, r ∈ (searchOp cfg st q).1.data ↔
        r ∈ st.originalData ∧ rowMatches cfg q r = true)) ∧
    (searchOp cfg st q).1.originalData = st.originalData ∧
    (∀ q1 : String, (searchOp cfg ((searchOp cfg st q1).1) "").1.data = st.originalData) := by
  have hstate := searchOp_state cfg st q
  refine ⟨?_, ?_, hstate.2, ?_⟩
  · intro htrim
    rw [hstate.1, if_pos (Or.inr htrim)]
  · intro htrim
    have hcond : ¬(q = "" ∨ strTrim q = "") := by
      rintro (h | h)
      · exact htrim (by rw [h]; rfl)
      · exact htrim h
    have hdata : (searchOp cfg st q).1.data = st.originalData.filter (rowMatches cfg q) := by
      rw [hstate.1, if_neg hcond]
    refine ⟨hdata, ?_, ?_⟩
    · rw [hdata]
      exact List.filter_sublist _
    · intro r
      rw [hdata]
      exact List.mem_filter
  · intro q1
    have h1 := searchOp_state cfg st q1
    have h2 := searchOp_state cfg ((searchOp cfg st q1).1) ""
    rw [h2.1, if_pos (Or.inl rfl), h1.2]

/-- C7 witness: the amended search facts at concrete states — a whitespace
query restores the original, a lowercase query filters it, and an empty
query after a fruitless search restores the original row. -/
theorem c7_search_amended_witness :
    (searchOp (pagedConfig 10 ["name"]) (mkState rowsABC rowsABC 1 false) " ").1.data
      = rowsABC ∧
    (searchOp (pagedConfig 10 ["name"]) (mkState rowsABC rowsABC 1 false) "abc").1.data
      = rowsABC.filter (rowMatches (pagedConfig 10 ["name"]) "abc") ∧
    (searchOp (pagedConfig 10 ["name"])
        ((searchOp (pagedConfig 10 ["name"]) (mkState rowsABC rowsABC 1 false) "zzz").1)
        "").1.data
      = rowsABC := by
  refine ⟨(c7_search_amended (pagedConfig 10 ["name"])
      (mkState rowsABC rowsABC 1 false) " ").1 (by decide),
    ((c7_search_amended (pagedConfig 10 ["name"])
      (mkState rowsABC rowsABC 1 false) "abc").2.1 (by decide)).1,
    (c7_search_amended (pagedConfig 10 ["name"])
      (mkState rowsABC rowsABC 1 false) "zzz").2.2.2 ""⟩

/-! ## C9: numeric rule conditions -/

/-- C9: the rules-engine numeric comparisons coerce both the cell value and
the rule operand with `Number(...)` and return the numeric comparison, any
`NaN` comparison resolving to false; in particular `>= 18` is false against
`{age: 17}` and true against `{age: 18}`. -/
theorem c9_numeric_conditions (value condValue : JSVal) :
    ((jsNumber value = none ∨ jsNumber condValue = none) →
      ∀ op, evaluateCondition op value condValue = false) ∧
    (∀ x y : Int, jsNumber value = some x → jsNumber condValue = some y →
      evaluateCondition .gt value condValue = decide (y < x) ∧
      evaluateCondition .ge value condValue = decide (y ≤ x) ∧
      evaluateCondition .lt value condValue = decide (x < y) ∧
      evaluateCondition .le value condValue = decide (x ≤ y)) ∧
    evaluateCondition .ge (getField [("age", JSVal.num 17)] "age") (JSVal.num 18) = false ∧
    evaluateCondition .ge (getField [("age", JSVal.num 18)] "age") (JSVal.num 18) = true := by
  refine ⟨?_, ?_, by decide, by decide⟩
  · intro h op
    unfold evaluateCondition
    rcases h with h | h
    · rw [h]
    · rw [h]
      cases jsNumber value <;> rfl
  · intro x y hx hy
    unfold evaluateCondition
    rw [hx, hy]
    exact ⟨rfl, rfl, rfl, rfl⟩

/-- C9 witness: `NaN` resolves false at a concrete non-numeric value, and a
concrete numeric comparison agrees with the integer comparison. -/
theorem c9_numeric_conditions_witness :
    evaluateCondition .ge (JSVal.str "abc") (JSVal.num 18) = false ∧
    evaluateCondition .gt (JSVal.num 20) (JSVal.num 18) = decide ((18 : Int) < 20) := by
  exact ⟨(c9_numeric_conditions (JSVal.str "abc") (JSVal.num 18)).1
      (Or.inl (by decide)) .ge,
    ((c9_numeric_conditions (JSVal.num 20) (JSVal.num 18)).2.1 20 18 rfl rfl).1⟩

/-! ## C10: showVersionHistory sorts the stored history in place -/

/-- C10: `getCellVersionHistory` hands back the stored history itself, and
`showVersionHistory` sorts that storage by timestamp descending: afterwards
the stored list for the cell is the timestamp-descending sort of what was
stored, is pairwise newest-first, and — whenever at least two entries with
strictly increasing timestamps were stored — is no longer the chronological
append order. -/
theorem c10_show_history_sorts (st : TableState) (rowIndex : Nat) (field : String) :
    (getCellVersionHistory st rowIndex field ≠ [] →
      getCellVersionHistory (showVersionHistory st rowIndex field) rowIndex field
        = (getCellVersionHistory st rowIndex field).mergeSort tsLe ∧
      (getCellVersionHistory (showVersionHistory st rowIndex field) rowIndex field).Pairwise
        (fun a b => b.timestamp ≤ a.timestamp)) ∧
    ((getCellVersionHistory st rowIndex field).Chain' (fun a b => a.timestamp < b.timestamp) →
      2 ≤ (getCellVersionHistory st rowIndex field).length →
      getCellVersionHistory (showVersionHistory st rowIndex field) rowIndex field
        ≠ getCellVersionHistory st rowIndex field) := by
  have htrans : ∀ a b c : Version, tsLe a b → tsLe b c → tsLe a c := by
    intro a b c
    simp only [tsLe, decide_eq_true_eq]
    omega
  have htotal : ∀ a b : Version, tsLe a b || tsLe b a := by
    intro a b
    simp only [tsLe, Bool.or_eq_true, decide_eq_true_eq]
    omega
  have hafter : getCellVersionHistory st rowIndex field ≠ [] →
      getCellVersionHistory (showVersionHistory st rowIndex field) rowIndex field
        = (getCellVersionHistory st rowIndex field).mergeSort tsLe := by
    intro hne
    unfold showVersionHistory
    rw [if_neg (by simpa [List.isEmpty_iff] using hne)]
    unfold getCellVersionHistory
    simp
  have hpair : getCellVersionHistory st rowIndex field ≠ [] →
      (getCellVersionHistory (showVersionHistory st rowIndex field) rowIndex field).Pairwise
        (fun a b => b.timestamp ≤ a.timestamp) := by
    intro hne
    rw [hafter hne]
    exact (List.sorted_mergeSort htrans htotal
      (getCellVersionHistory st rowIndex field)).imp
      (by intro a b h; simpa [tsLe, decide_eq_true_eq] using h)
  refine ⟨fun hne => ⟨hafter hne, hpair hne⟩, ?_⟩
  intro hchain hlen2 heq
  obtain ⟨v0, v1, rest, hb⟩ :
      ∃ v0 v1 rest, getCellVersionHistory st rowIndex field = v0 :: v1 :: rest := by
    cases hl : getCellVersionHistory st rowIndex field with
    | nil =>
      rw [hl] at hlen2
      simp at hlen2
    | cons v0 tl =>
      cases tl with
      | nil =>
        rw [hl] at hlen2
        simp at hlen2
      | cons v1 rest => exact ⟨v0, v1, rest, rfl⟩
  have hne : getCellVersionHistory st rowIndex field ≠ [] := by
    rw [hb]
    exact List.cons_ne_nil _ _
  have hlt : v0.timestamp < v1.timestamp := by
    rw [hb] at hchain
    exact (List.chain'_cons.mp hchain).1
  have hp := hpair hne
  rw [heq, hb] at hp
  have hle := (List.pairwise_cons.mp hp).1 v1 (by simp)
  omega

/-- C10 witness: a concrete two-entry chronological history is re-sorted
newest-first in the store and differs from its former append order. -/
theorem c10_show_history_sorts_witness :
    getCellVersionHistory (showVersionHistory vhState 0 "v") 0 "v"
      = (getCellVersionHistory vhState 0 "v").mergeSort tsLe ∧
    getCellVersionHistory (showVersionHistory vhState 0 "v") 0 "v"
      ≠ getCellVersionHistory vhState 0 "v" := by
  have hlist : getCellVersionHistory vhState 0 "v"
      = [⟨JSVal.str "a", 1, none⟩, ⟨JSVal.str "b", 2, none⟩] := rfl
  have hchain : (getCellVersionHistory vhState 0 "v").Chain'
      (fun a b => a.timestamp < b.timestamp) := by
    rw [hlist]
    exact List.chain'_cons.mpr ⟨by norm_num, List.chain'_singleton _⟩
  exact ⟨((c10_show_history_sorts vhState 0 "v").1 (by rw [hlist]; decide)).1,
    (c10_show_history_sorts vhState 0 "v").2 hchain (by rw [hlist]; decide)⟩

/-! ## Comparator sign lemmas (C5, C6) -/

theorem charListLt_asymm : ∀ as bs : List Char,
    charListLt as bs = true → charListLt bs as = false := by
  intro as
  induction as with
  | nil =>
    intro bs h
    cases bs with
    | nil => simp [charListLt] at h
    | cons b bs => rfl
  | cons a as ih =>
    intro bs h
    cases bs with
    | nil => simp [charListLt] at h
    | cons b bs =>
      rw [charListLt] at h
      rw [charListLt]
      by_cases hab : a.toNat < b.toNat
      · have hba : ¬b.toNat < a.toNat := by omega
        rw [if_neg hba, if_pos hab]
      · by_cases hba : b.toNat < a.toNat
        · rw [if_neg hab, if_pos hba] at h
          exact absurd h (by simp)
        · rw [if_neg hab, if_neg hba] at h
          rw [if_neg hba, if_neg hab]
          exact ih bs h

theorem localeCompare_swap (a b : String) : localeCompare b a = -localeCompare a b := by
  unfold localeCompare
  cases h1 : charListLt a.toList b.toList <;> cases h2 : charListLt b.toList a.toList <;>
    simp [h1, h2]
  exact absurd h2 (by rw [charListLt_asymm _ _ h1]; simp)

theorem compareVals_num (dir : SortDir) {a b : JSVal} {x y : Int} (hab : a ≠ b)
    (hx : jsParseFloat a = some x) (hy : jsParseFloat b = some y) :
    compareVals dir a b = if dir = .asc then x - y else y - x := by
  unfold compareVals
  rw [if_neg hab, hx, hy]

theorem compareVals_date (dir : SortDir) {a b : JSVal} {ta tb : Int} (hab : a ≠ b)
    (hf : jsParseFloat a = none ∨ jsParseFloat b = none)
    (hda : jsParseDate a = some ta) (hdb : jsParseDate b = some tb) :
    compareVals dir a b = if dir = .asc then ta - tb else tb - ta := by
  unfold compareVals
  rw [if_neg hab, hda, hdb]
  rcases hf with h | h
  · rw [h]
  · rw [h]
    try cases hq : jsParseFloat a <;> rfl

theorem compareVals_str (dir : SortDir) {a b : JSVal} (hab : a ≠ b)
    (hf : jsParseFloat a = none ∨ jsParseFloat b = none)
    (hd : jsParseDate a = none ∨ jsParseDate b = none) :
    compareVals dir a b
      = (if dir = .asc then localeCompare (strOrEmpty a) (strOrEmpty b)
         else localeCompare (strOrEmpty b) (strOrEmpty a)) := by
  unfold compareVals
  rw [if_neg hab]
  rcases hf with h | h
  · rw [h]
    rcases hd with h2 | h2
    · rw [h2]
    · rw [h2]
      try cases hq : jsParseFloat b <;> cases hq2 : jsParseDate a <;> rfl
  · rw [h]
    rcases hd with h2 | h2
    · rw [h2]
      try cases hq : jsParseFloat a <;> cases hq2 : jsParseDate b <;> rfl
    · rw [h2]
      try cases hq : jsParseFloat a <;> cases hq2 : jsParseDate a <;> rfl

theorem compareVals_swap (dir : SortDir) (a b : JSVal) :
    compareVals dir b a = -compareVals dir a b := by
  by_cases hab : a = b
  · subst hab
    simp [compareVals]
  · have hba : b ≠ a := fun h => hab h.symm
    cases hfa : jsParseFloat a <;> cases hfb : jsParseFloat b
    · cases hda : jsParseDate a <;> cases hdb : jsParseDate b
      · rw [compareVals_str dir hba (Or.inl hfb) (Or.inl hdb),
          compareVals_str dir hab (Or.inl hfa) (Or.inl hda)]
        cases dir <;> simp <;> exact localeCompare_swap _ _
      · rw [compareVals_str dir hba (Or.inl hfb) (Or.inr hda),
          compareVals_str dir hab (Or.inl hfa) (Or.inl hda)]
        cases dir <;> simp <;> exact localeCompare_swap _ _
      · rw [compareVals_str dir hba (Or.inl hfb) (Or.inl hdb),
          compareVals_str dir hab (Or.inl hfa) (Or.inr hdb)]
        cases dir <;> simp <;> exact localeCompare_swap _ _
      · rw [compareVals_date dir hba (Or.inl hfb) hdb hda,
          compareVals_date dir hab (Or.inl hfa) hda hdb]
        cases dir <;> simp
    · cases hda : jsParseDate a <;> cases hdb : jsParseDate b
      · rw [compareVals_str dir hba (Or.inr hfa) (Or.inl hdb),
          compareVals_str dir hab (Or.inl hfa) (Or.inl hda)]
        cases dir <;> simp <;> exact localeCompare_swap _ _
      · rw [compareVals_str dir hba (Or.inr hfa) (Or.inr hda),
          compareVals_str dir hab (Or.inl hfa) (Or.inl hda)]
        cases dir <;> simp <;> exact localeCompare_swap _ _
      · rw [compareVals_str dir hba (Or.inr hfa) (Or.inl hdb),
          compareVals_str dir hab (Or.inl hfa) (Or.inr hdb)]
        cases dir <;> simp <;> exact localeCompare_swap _ _
      · rw [compareVals_date dir hba (Or.inr hfa) hdb hda,
          compareVals_date dir hab (Or.inl hfa) hda hdb]
        cases dir <;> simp
    · cases hda : jsParseDate a <;> cases hdb : jsParseDate b
      · rw [compareVals_str dir hba (Or.inl hfb) (Or.inl hdb),
          compareVals_str dir hab (Or.inr hfb) (Or.inl hda)]
        cases dir <;> simp <;> exact localeCompare_swap _ _
      · rw [compareVals_str dir hba (Or.inl hfb) (Or.inr hda),
          compareVals_str dir hab (Or.inr hfb) (Or.inl hda)]
        cases dir <;> simp <;> exact localeCompare_swap _ _
      · rw [compareVals_str dir hba (Or.inl hfb) (Or.inl hdb),
          compareVals_str dir hab (Or.inr hfb) (Or.inr hdb)]
        cases dir <;> simp <;> exact localeCompare_swap _ _
      · rw [compareVals_date dir hba (Or.inl hfb) hdb hda,
          compareVals_date dir hab (Or.inr hfb) hda hdb]
        cases dir <;> simp
    · rw [compareVals_num dir hba hfb hfa, compareVals_num dir hab hfa hfb]
      cases dir <;> simp

/-! ## C5: comparator return values and type policy -/

/-- C5, counterexample: comparing the numeric cells `10` and `3` the
comparator returns `10 - 3 = 7`, which is not in `{-1, 0, 1}`. -/
theorem c5_counterexample :
    compareVals .asc (JSVal.num 10) (JSVal.num 3) = 7 ∧
    ¬(compareVals .asc (JSVal.num 10) (JSVal.num 3) = -1 ∨
      compareVals .asc (JSVal.num 10) (JSVal.num 3) = 0 ∨
      compareVals .asc (JSVal.num 10) (JSVal.num 3) = 1) := by
  exact ⟨by decide, by decide⟩

/-- C5 (amended): the comparator returns an integer whose sign encodes the
ordering (only the string branch is confined to `{-1, 0, 1}`); the type
policy is decided independently per pair — both values parse as numbers:
numeric comparison; else both parse as dates: temporal comparison; else
locale string comparison of `String(v || '')` — strictly equal values yield
`0`, and swapping the arguments negates the result. -/
theorem c5_compare_amended (a b : JSVal) :
    (a = b → ∀ dir, compareVals dir a b = 0) ∧
    (∀ x y : Int, jsParseFloat a = some x → jsParseFloat b = some y →
      ((compareVals .asc a b < 0 ↔ x < y) ∧ (compareVals .asc a b = 0 ↔ x = y) ∧
       (0 < compareVals .asc a b ↔ y < x))) ∧
    ((jsParseFloat a = none ∨ jsParseFloat b = none) →
      ∀ ta tb : Int, jsParseDate a = some ta → jsParseDate b = some tb →
      ((compareVals .asc a b < 0 ↔ ta < tb) ∧ (compareVals .asc a b = 0 ↔ ta = tb) ∧
       (0 < compareVals .asc a b ↔ tb < ta))) ∧
    (a ≠ b → (jsParseFloat a = none ∨ jsParseFloat b = none) →
      (jsParseDate a = none ∨ jsParseDate b = none) →
      compareVals .asc a b = localeCompare (strOrEmpty a) (strOrEmpty b) ∧
      (compareVals .asc a b = -1 ∨ compareVals .asc a b = 0 ∨
       compareVals .asc a b = 1)) ∧
    (∀ dir, compareVals dir b a = -compareVals dir a b) := by
  refine ⟨?_, ?_, ?_, ?_, fun dir => compareVals_swap dir a b⟩
  · intro h dir
    subst h
    simp [compareVals]
  · intro x y hx hy
    by_cases hab : a = b
    · have hxy : x = y := by
        rw [hab, hy] at hx
        exact (Option.some.inj hx).symm
      have h0 : compareVals .asc a b = 0 := by
        rw [hab]
        simp [compareVals]
      rw [h0, hxy]
      refine ⟨?_, ?_, ?_⟩ <;> omega
    · rw [compareVals_num .asc hab hx hy, if_pos rfl]
      refine ⟨?_, ?_, ?_⟩ <;> omega
  · intro hf ta tb hda hdb
    by_cases hab : a = b
    · have htt : ta = tb := by
        rw [hab, hdb] at hda
        exact (Option.some.inj hda).symm
      have h0 : compareVals .asc a b = 0 := by
        rw [hab]
        simp [compareVals]
      rw [h0, htt]
      refine ⟨?_, ?_, ?_⟩ <;> omega
    · rw [compareVals_date .asc hab hf hda hdb, if_pos rfl]
      refine ⟨?_, ?_, ?_⟩ <;> omega
  · intro hab hf hd
    rw [compareVals_str .asc hab hf hd, if_pos rfl]
    refine ⟨rfl, ?_⟩
    unfold localeCompare
    split_ifs <;> simp

/-- C5 witness: the sign facts at concrete values — `10` vs `3` compares
positive, equal values compare `0`, and two non-numeric non-date strings
compare within `{-1, 0, 1}`. -/
theorem c5_compare_amended_witness :
    0 < compareVals .asc (JSVal.num 10) (JSVal.num 3) ∧
    compareVals .asc (JSVal.num 5) (JSVal.num 5) = 0 ∧
    (compareVals .asc (JSVal.str "x") (JSVal.str "y") = -1 ∨
     compareVals .asc (JSVal.str "x") (JSVal.str "y") = 0 ∨
     compareVals .asc (JSVal.str "x") (JSVal.str "y") = 1) := by
  refine ⟨((c5_compare_amended (JSVal.num 10) (JSVal.num 3)).2.1 10 3 rfl rfl).2.2.mpr
      (by norm_num),
    (c5_compare_amended (JSVal.num 5) (JSVal.num 5)).1 rfl .asc,
    ((c5_compare_amended (JSVal.str "x") (JSVal.str "y")).2.2.2.1 (by decide)
      (Or.inl (by decide)) (Or.inl (by decide))).2⟩

end Tablein
